import Mathlib

/-
Shallow embedding of src/blockchain/esplora/blocking.rs (EsploraBlockchain).

Conventions of the embedding:
- Txid, Script, BlockHash, Transaction bodies and BatchUpdate values are
  modelled as Nat identifiers; HTTP status codes as Nat.
- A remote call whose outcome varies per invocation is modelled as an
  oracle from the invocation index to the call result; a call keyed by an
  argument (block-hash-by-height) is an oracle from that argument.
- The retry loops of retry_script_with_429 and retry_tx_with_429 are
  modelled with an explicit fuel argument: a result of none means the loop
  did not return within the given fuel.  The returned trace records the
  outcome, the ordered list of backoff sleep durations (seconds), and the
  number of underlying call attempts made.
-/

/-- Model of esplora_client::Error as classified by the retry loops: an
HTTP response error carrying a status code, or any other error variant. -/
inductive CallErr where
  | httpResponse (status : Nat)
  | other (code : Nat)
deriving DecidableEq

/-- Result of one underlying remote call. -/
inductive CallResult (α : Type) where
  | ok (v : α)
  | err (e : CallErr)
deriving DecidableEq

deriving instance DecidableEq for Except

/-- Observable trace of one run of a retry loop: the final outcome, the
backoff sleep durations in the order they happened, and how many
underlying call attempts were made. -/
structure RetryTrace (α : Type) where
  outcome : Except CallErr α
  waits : List Nat
  calls : Nat
deriving DecidableEq

/-- The shared retry loop body of retry_script_with_429 and
retry_tx_with_429 (the two Rust functions are textually identical up to
the underlying client call).  Mirrors the source: on Ok return the value;
on an error, first check attempts > 6 and return the error if exceeded;
otherwise, if the error is HttpResponse with status 429, sleep
2^attempts seconds (1 << attempts) and increment attempts; if the error
is HttpResponse with any other status, fall through and loop again with
no sleep and no increment (the inner if has no else in the source); any
non-HttpResponse error returns immediately. -/
def retryLoop429 {α : Type} (call : Nat → CallResult α) :
    Nat → Nat → Nat → List Nat → Option (RetryTrace α)
  | 0, _, _, _ => none
  | fuel+1, attempts, i, waits =>
    match call i with
    | .ok v => some ⟨.ok v, waits.reverse, i+1⟩
    | .err e =>
      if attempts > 6 then
        some ⟨.error e, waits.reverse, i+1⟩
      else
        match e with
        | .httpResponse status =>
          if status = 429 then
            retryLoop429 call fuel (attempts+1) (i+1) (2 ^ attempts :: waits)
          else
            retryLoop429 call fuel attempts (i+1) waits
        | .other _ => some ⟨.error e, waits.reverse, i+1⟩


/-- Confirmation status of a fetched transaction record
(esplora_client::TxStatus). -/
structure TxStatus where
  confirmed : Bool
  block_height : Option Nat
  block_time : Option Nat
deriving DecidableEq

/-- A remote-fetched transaction record (esplora_client::Tx).  The txid,
the previous-output references (vin) and the materialized transaction
body are modelled as Nat identifiers. -/
structure Tx where
  txid : Nat
  status : TxStatus
  vin : List (Nat × Nat)
  body : Nat
deriving DecidableEq

/-- Previous-output references of a record, from the external
esplora_client collaborator interface. -/
def Tx.previous_outputs (tx : Tx) : List (Nat × Nat) := tx.vin

/-- Materialized full transaction body, from the external esplora_client
collaborator interface. -/
def Tx.to_tx (tx : Tx) : Nat := tx.body

/-- Optional confirmation time of a record, from the external
esplora_client collaborator interface: present only when the record is
confirmed with a known block height and block time. -/
def Tx.confirmation_time (tx : Tx) : Option (Nat × Nat) :=
  match tx.status with
  | ⟨true, some h, some t⟩ => some (h, t)
  | _ => none

/-- retry_script_with_429: the retry loop around client.scripthash_txs
for one (script, page-cursor) pair, starting with attempts = 0.  The
oracle gives the result of the i-th underlying call attempt. -/
def retry_script_with_429 (scripthash_txs : Nat → CallResult (List Tx))
    (fuel : Nat) : Option (RetryTrace (List Tx)) :=
  retryLoop429 scripthash_txs fuel 0 0 []

/-- retry_tx_with_429: the retry loop around client.get_tx for one txid,
starting with attempts = 0. -/
def retry_tx_with_429 (get_tx_call : Nat → CallResult (Option Nat))
    (fuel : Nat) : Option (RetryTrace (Option Nat)) :=
  retryLoop429 get_tx_call fuel 0 0 []

/-- One direct client invocation with no retry wrapper: it performs
exactly one underlying call and converts the result to the method's
Result, counting the call. -/
def oneCall {α : Type} (call : Nat → CallResult α) (arg : Nat) :
    Except CallErr α × Nat :=
  match call arg with
  | .ok v => (.ok v, 1)
  | .err e => (.error e, 1)

/-- Blockchain::broadcast: a single direct client.broadcast call, no
retry wrapper.  The oracle is indexed by invocation number; exactly one
invocation (index 0) is made. -/
def broadcast (call : Nat → CallResult Unit) : Except CallErr Unit × Nat :=
  oneCall call 0

/-- Blockchain::estimate_fee: a single direct client.get_fee_estimates
call, no retry wrapper, followed by the external convert_fee_rate
conversion (modelled abstractly). -/
def estimate_fee (call : Nat → CallResult (List (Nat × Nat)))
    (convert_fee_rate : List (Nat × Nat) → Except CallErr Nat) :
    Except CallErr Nat × Nat :=
  match call 0 with
  | .ok estimates => (convert_fee_rate estimates, 1)
  | .err e => (.error e, 1)

/-- GetHeight::get_height: a single direct client.get_height call, no
retry wrapper. -/
def get_height (call : Nat → CallResult Nat) : Except CallErr Nat × Nat :=
  oneCall call 0

/-- GetBlockHash::get_block_hash: truncates the u64 height with an
`as u32` cast (modelled as % 2^32) and performs a single direct
client.get_block_hash call at the truncated height, no retry wrapper.
The oracle is indexed by the queried height. -/
def get_block_hash (client_call : Nat → CallResult Nat) (height : Nat) :
    Except CallErr Nat × Nat :=
  oneCall client_call (height % 2 ^ 32)

/-- GetTx::get_tx: delegates to retry_tx_with_429 (the only passthrough
operation that goes through the retried call path). -/
def get_tx (call : Nat → CallResult (Option Nat)) (fuel : Nat) :
    Option (RetryTrace (Option Nat)) :=
  retry_tx_with_429 call fuel

/-- Outcome of a driver-side computation: a normal value, a propagated
fetch/satisfy error, the "must be in index" expect panic, or fuel
exhaustion of the model (the source loop has no fuel; outOfFuel only
means the model was not given enough fuel to reach the source's
behavior). -/
inductive Outcome (ε α : Type) where
  | ok (v : α)
  | err (e : ε)
  | panic
  | outOfFuel
deriving DecidableEq

/-- Inner pagination loop of the Script History Collector (the loop in
wallet_setup entered when the first page has at least 25 confirmed
entries).  related is the accumulated record list; fetches counts page
fetches made so far.  Each iteration fetches at the cursor given by the
last accumulated record's txid, appends the new page, and stops when the
new page has fewer than 25 records.  The panic case models the
last().unwrap() on an empty accumulated list (unreachable when entered
from collectHistory). -/
def collectLoop {ε : Type} (fetch : Option Nat → Except ε (List Tx)) :
    Nat → List Tx → Nat → Outcome ε (List Tx × Nat)
  | 0, _, _ => .outOfFuel
  | fuel+1, related, fetches =>
    match related.getLast? with
    | none => .panic
    | some last =>
      match fetch (some last.txid) with
      | .error e => .err e
      | .ok new_related =>
        let n := new_related.length
        let related2 := related ++ new_related
        if n < 25 then .ok (related2, fetches + 1)
        else collectLoop fetch fuel related2 (fetches + 1)

/-- The Script History Collector for one script, as inlined in
wallet_setup: fetch the first page with cursor none via the retried
fetch; count the confirmed entries; if 25 or more, run the pagination
loop, else return the single page.  fetch models
retry_script_with_429(client, script, cursor); the Nat in the result
counts page fetches. -/
def collectHistory {ε : Type} (fetch : Option Nat → Except ε (List Tx))
    (fuel : Nat) : Outcome ε (List Tx × Nat) :=
  match fetch none with
  | .error e => .err e
  | .ok related_txs =>
    if 25 ≤ (related_txs.filter fun tx => tx.status.confirmed).length then
      collectLoop fetch fuel related_txs 1
    else
      .ok (related_txs, 1)

/-- First loop of the Script-discovery arm of wallet_setup: for each
script in request order, run the Collector and collect the per-script
record lists (txs_per_script).  Any fetch error aborts immediately via
the question-mark operator. -/
def fetchAllScripts {ε : Type} (fetch : Nat → Option Nat → Except ε (List Tx))
    (pageFuel : Nat) : List Nat → Outcome ε (List (List Tx))
  | [] => .ok []
  | s :: rest =>
    match collectHistory (fetch s) pageFuel with
    | .err e => .err e
    | .panic => .panic
    | .outOfFuel => .outOfFuel
    | .ok (txs, _) =>
      match fetchAllScripts fetch pageFuel rest with
      | .err e => .err e
      | .panic => .panic
      | .outOfFuel => .outOfFuel
      | .ok tps => .ok (txs :: tps)

/-- Insertion of one record into the Transaction Index
(tx_index.insert(tx.txid, tx)): the index maps a txid to the most
recently inserted record with that txid. -/
def txIndexInsert (idx : Nat → Option Tx) (tx : Tx) : Nat → Option Tx :=
  fun k => if k = tx.txid then some tx else idx k

/-- Second loop of the Script-discovery arm: the satisfaction payload,
per script in request order, is the ordered list of
(txid, optional block height) pairs in the Collector's return order. -/
def scriptSatisfaction (txs_per_script : List (List Tx)) :
    List (List (Nat × Option Nat)) :=
  txs_per_script.map fun txs => txs.map fun tx => (tx.txid, tx.status.block_height)

/-- Second loop of the Script-discovery arm, index side: every record of
every per-script list is inserted into the Transaction Index in order. -/
def indexAfterScripts (idx : Nat → Option Tx) (txs_per_script : List (List Tx)) :
    Nat → Option Tx :=
  txs_per_script.foldl (fun i txs => txs.foldl txIndexInsert i) idx

/-- Confirmation-resolution arm of wallet_setup: for each requested txid
in order, look the record up in the Index (none models the
"must be in index" expect panic) and emit its optional confirmation
time. -/
def conftimeStage (idx : Nat → Option Tx) : List Nat → Option (List (Option (Nat × Nat)))
  | [] => some []
  | t :: rest =>
    match idx t with
    | none => none
    | some tx =>
      match conftimeStage idx rest with
      | none => none
      | some l => some (tx.confirmation_time :: l)

/-- Transaction-fetch arm of wallet_setup: for each requested txid in
order, look the record up in the Index (none models the
"must be in index" expect panic) and emit the pair of its
previous-output references and materialized body.  The Result collect of
the source always wraps Ok, so no error case arises here. -/
def txStage (idx : Nat → Option Tx) : List Nat → Option (List (List (Nat × Nat) × Nat))
  | [] => some []
  | t :: rest =>
    match idx t with
    | none => none
    | some tx =>
      match txStage idx rest with
      | none => none
      | some l => some ((tx.previous_outputs, tx.to_tx) :: l)

/-- Modelled from the spec: the sync-plan collaborator
(the script_sync module of this repository, which is not under src/).
A Plan is the current StageRequest together with the collaborator-owned
satisfy transition: each non-Finish variant carries its ordered request
sequence and a function from the satisfaction payload to the next
request (satisfy may fail, as in the source where satisfy returns a
Result).  Finish carries the BatchUpdate, modelled as a Nat. -/
inductive Plan (ε : Type) where
  | script (scripts : List Nat)
      (next : List (List (Nat × Option Nat)) → Except ε (Plan ε))
  | conftime (txids : List Nat)
      (next : List (Option (Nat × Nat)) → Except ε (Plan ε))
  | txfetch (txids : List Nat)
      (next : List (List (Nat × Nat) × Nat) → Except ε (Plan ε))
  | finish (batch : Nat)

/-- The empty Transaction Index a sync starts from. -/
def emptyIndex : Nat → Option Tx := fun _ => none

/-- The request/satisfy driver loop of wallet_setup: dispatch on the
current request, fulfill it with the Collector (Script), or the Index
(Conftime, Tx), satisfy to obtain the next request, and break with the
BatchUpdate at Finish.  fuel bounds the number of stage transitions of
the model. -/
def runReq {ε : Type} (fetch : Nat → Option Nat → Except ε (List Tx))
    (pageFuel : Nat) : Nat → (Nat → Option Tx) → Plan ε → Outcome ε Nat
  | 0, _, _ => .outOfFuel
  | fuel+1, idx, plan =>
    match plan with
    | .finish batch => .ok batch
    | .script scripts next =>
      match fetchAllScripts fetch pageFuel scripts with
      | .err e => .err e
      | .panic => .panic
      | .outOfFuel => .outOfFuel
      | .ok tps =>
        match next (scriptSatisfaction tps) with
        | .error e => .err e
        | .ok plan2 => runReq fetch pageFuel fuel (indexAfterScripts idx tps) plan2
    | .conftime txids next =>
      match conftimeStage idx txids with
      | none => .panic
      | some conftimes =>
        match next conftimes with
        | .error e => .err e
        | .ok plan2 => runReq fetch pageFuel fuel idx plan2
    | .txfetch txids next =>
      match txStage idx txids with
      | none => .panic
      | some full_txs =>
        match next full_txs with
        | .error e => .err e
        | .ok plan2 => runReq fetch pageFuel fuel idx plan2

/-- WalletSync::wallet_setup: run the driver loop from an empty
Transaction Index, then, only when the loop broke at Finish with a
BatchUpdate, invoke the database collaborator's commit_batch with it.
The second component is the trace of commit_batch invocations. -/
def wallet_setup {ε : Type} (fetch : Nat → Option Nat → Except ε (List Tx))
    (pageFuel fuel : Nat) (plan : Plan ε) (commit_batch : Nat → Except ε Unit) :
    Outcome ε Unit × List Nat :=
  match runReq fetch pageFuel fuel emptyIndex plan with
  | .ok batch_update =>
    match commit_batch batch_update with
    | .ok _ => (.ok (), [batch_update])
    | .error e => (.err e, [batch_update])
  | .err e => (.err e, [])
  | .panic => (.panic, [])
  | .outOfFuel => (.outOfFuel, [])

/-- Oracle answering 429 on every call attempt. -/
def const429 : Nat → CallResult (List Tx) := fun _ => .err (.httpResponse 429)

/-- Oracle answering 429 on the first 6 call attempts and succeeding
afterwards. -/
def sixThenOk : Nat → CallResult (List Tx) :=
  fun i => if i < 6 then .err (.httpResponse 429) else .ok []

/-- A concrete record used by the witnesses. -/
def mkTx (n : Nat) : Tx := ⟨n, ⟨true, some n, some n⟩, [], n⟩

/-- A concrete single-page fetch oracle. -/
def fetchOnePage : Option Nat → Except Nat (List Tx) := fun _ => .ok [mkTx 1]

/-- First page of the two-page witness script: 25 confirmed records with
txids 0..24. -/
def pageA1 : List Tx := (List.range 25).map mkTx

/-- Short second page of the two-page witness script. -/
def pageA2 : List Tx := [mkTx 100]

/-- Fetch oracle of a script with 26 confirmed records: a full first
page and a 1-record second page at cursor txid 24. -/
def fetchTwoPages : Option Nat → Except Nat (List Tx) := fun c =>
  match c with
  | none => .ok pageA1
  | some 24 => .ok pageA2
  | some _ => .ok []

/-- Second full page of the multiple-of-25 witness script: 25 confirmed
records with txids 25..49. -/
def pageB2 : List Tx := (List.range 25).map fun n => mkTx (n + 25)

/-- Fetch oracle of a script with exactly 50 confirmed records: two full
pages, then an empty page at cursor txid 49. -/
def fetchFifty : Option Nat → Except Nat (List Tx) := fun c =>
  match c with
  | none => .ok pageA1
  | some 24 => .ok pageB2
  | some _ => .ok []

/-- Last record with the given txid in a list of records, if any: the
reference value of a Transaction Index lookup after inserting the whole
list in order (last write wins). -/
def lastWithTxid : List Tx → Nat → Option Tx
  | [], _ => none
  | tx :: rest, k =>
    (lastWithTxid rest k).elim (if tx.txid = k then some tx else none) some

/-- Concatenation of the per-script record lists, in script order: the
order in which the Script-discovery arm inserts records into the
Transaction Index. -/
def concatAll : List (List Tx) → List Tx
  | [] => []
  | l :: ls => l ++ concatAll ls

/-- Fetch oracle for the C9 witness: each script has a one-page history
of two records, the second of which (txid 7) is shared between the two
scripts. -/
def twoScriptFetch : Nat → Option Nat → Except Nat (List Tx) :=
  fun s _ => .ok [mkTx s, mkTx 7]

/-- Concrete two-entry Transaction Index for the C4 witness. -/
def idxW : Nat → Option Tx :=
  fun k => if k = 1 then some (mkTx 1) else if k = 2 then some (mkTx 2) else none

/-- Fetch oracle whose every page fetch fails, for the C3 witness. -/
def failFetch : Nat → Option Nat → Except Nat (List Tx) := fun _ _ => .error 7

/-- Satisfy transition used by the C3 witness failing scenario. -/
def nextW : List (List (Nat × Option Nat)) → Except Nat (Plan Nat) :=
  fun _ => .ok (.finish 0)

/-- A plan that is already at the Finish stage, for the C3 witness. -/
def planOK : Plan Nat := .finish 42

/-- A commit_batch that always succeeds, for the C3 witness. -/
def commitOK : Nat → Except Nat Unit := fun _ => .ok ()

/-- Client oracle answering a 429 HTTP error on every invocation, for
the C8 witness. -/
def errCall (α : Type) : Nat → CallResult α := fun _ => .err (.httpResponse 429)

/-- Client oracle answering the queried height itself as the block hash,
for the C10 witness. -/
def someClient : Nat → CallResult Nat := fun h => .ok h

/-- Unfolding equation for one iteration of the retry loop. -/
theorem retryLoop429_succ {α : Type} (call : Nat → CallResult α)
    (fuel attempts i : Nat) (waits : List Nat) :
    retryLoop429 call (fuel+1) attempts i waits =
      match call i with
      | .ok v => some ⟨.ok v, waits.reverse, i+1⟩
      | .err e =>
        if attempts > 6 then
          some ⟨.error e, waits.reverse, i+1⟩
        else
          match e with
          | .httpResponse status =>
            if status = 429 then
              retryLoop429 call fuel (attempts+1) (i+1) (2 ^ attempts :: waits)
            else
              retryLoop429 call fuel attempts (i+1) waits
          | .other _ => some ⟨.error e, waits.reverse, i+1⟩ := rfl

/-
Lemmas about one iteration of the retry loop, split by the source's
branches: success, attempts cap exceeded, a 429 response, a non-429
HTTP response, and a non-HTTP error.
-/

theorem retryLoop429_ok_step {α : Type} (call : Nat → CallResult α)
    (fuel attempts i : Nat) (waits : List Nat) (v : α) (hcall : call i = .ok v) :
    retryLoop429 call (fuel+1) attempts i waits = some ⟨.ok v, waits.reverse, i+1⟩ := by
  simp only [retryLoop429_succ, hcall]

theorem retryLoop429_cap_step {α : Type} (call : Nat → CallResult α)
    (fuel attempts i : Nat) (waits : List Nat) (e : CallErr)
    (hcall : call i = .err e) (hatt : attempts > 6) :
    retryLoop429 call (fuel+1) attempts i waits = some ⟨.error e, waits.reverse, i+1⟩ := by
  simp only [retryLoop429_succ, hcall]
  rw [if_pos hatt]

theorem retryLoop429_429_step {α : Type} (call : Nat → CallResult α)
    (fuel attempts i : Nat) (waits : List Nat)
    (hcall : call i = .err (.httpResponse 429)) (hatt : ¬ attempts > 6) :
    retryLoop429 call (fuel+1) attempts i waits =
      retryLoop429 call fuel (attempts+1) (i+1) (2 ^ attempts :: waits) := by
  simp only [retryLoop429_succ, hcall]
  rw [if_neg hatt]
  simp

theorem retryLoop429_nonrl_step {α : Type} (call : Nat → CallResult α)
    (fuel attempts i : Nat) (waits : List Nat) (status : Nat)
    (hcall : call i = .err (.httpResponse status)) (hatt : ¬ attempts > 6)
    (hst : status ≠ 429) :
    retryLoop429 call (fuel+1) attempts i waits =
      retryLoop429 call fuel attempts (i+1) waits := by
  simp only [retryLoop429_succ, hcall]
  rw [if_neg hatt, if_neg hst]

/-- With every call attempt answering HTTP 500 (any non-429 HTTP
response), the loop never returns within any fuel: attempts is never
incremented, so the cap is never hit, and no branch returns. -/
theorem retryLoop429_const500_none {α : Type} :
    ∀ (fuel attempts i : Nat) (waits : List Nat), attempts ≤ 6 →
      retryLoop429 (α := α) (fun _ => .err (.httpResponse 500)) fuel attempts i waits = none := by
  intro fuel
  induction fuel with
  | zero => intro attempts i waits _; rfl
  | succ n ih =>
    intro attempts i waits h
    rw [retryLoop429_nonrl_step _ n attempts i waits 500 rfl (by omega) (by omega)]
    exact ih attempts (i+1) waits h

/-- C1: the claim says any error not classified as rate-limited (429) is
returned immediately with no further call attempt.  The code violates
this for HTTP-response errors with a non-429 status: that branch neither
returns nor increments attempts, so the loop immediately re-attempts the
call, without bound.  First conjunct: with every attempt answering HTTP
500, the script-page fetcher never returns, for any fuel.  Second
conjunct: after a first HTTP 500 response a second call attempt is made
and its value is returned.  Third conjunct: the same for the
transaction-by-id fetcher. -/
theorem retry_nonratelimit_http_error_retries_forever :
    (∀ fuel, retry_script_with_429 (fun _ => .err (.httpResponse 500)) fuel = none)
    ∧ retry_script_with_429 (fun i => if i = 0 then .err (.httpResponse 500) else .ok []) 5 =
        some ⟨.ok [], [], 2⟩
    ∧ (∀ fuel, retry_tx_with_429 (fun _ => .err (.httpResponse 500)) fuel = none) := by
  refine ⟨fun fuel => retryLoop429_const500_none fuel 0 0 [] (by omega), by decide,
    fun fuel => retryLoop429_const500_none fuel 0 0 [] (by omega)⟩

/-- C2 counterexample: given 7 consecutive rate-limited (429) responses
followed by a success, the fetcher does not return an error after 7
attempts: it performs a 7th backoff wait of 64 seconds and an 8th call
attempt, whose success value it returns.  This falsifies both the
"at most 7 total call attempts" and the "no 7th backoff wait" parts of
the claim. -/
theorem retry_seven_429s_counterexample :
    retry_script_with_429 (fun i => if i < 7 then .err (.httpResponse 429) else .ok []) 20 =
      some ⟨.ok [], [1, 2, 4, 8, 16, 32, 64], 8⟩ := by
  decide

/-- C2 amended: the Retrying Fetcher makes at most 8 total call attempts
when every response is rate-limited (1 initial + 7 retries): given 8
consecutive 429 responses it performs 7 backoff waits of 1, 2, 4, 8, 16,
32, 64 seconds and then returns the most recent (8th) error, unwrapped
from its rate-limit classification, without an 8th wait. -/
theorem retry_attempt_cap_amended (call : Nat → CallResult (List Tx))
    (hc : ∀ i, i < 8 → call i = .err (.httpResponse 429)) (k : Nat) :
    retry_script_with_429 call (k + 8) =
      some ⟨.error (.httpResponse 429), [1, 2, 4, 8, 16, 32, 64], 8⟩ := by
  rw [retry_script_with_429, show k + 8 = (k+7)+1 from by omega,
      retryLoop429_429_step call (k+7) 0 0 [] (hc 0 (by omega)) (by omega)]
  norm_num
  rw [show k + 7 = (k+6)+1 from by omega,
      retryLoop429_429_step call (k+6) 1 1 [1] (hc 1 (by omega)) (by omega)]
  norm_num
  rw [show k + 6 = (k+5)+1 from by omega,
      retryLoop429_429_step call (k+5) 2 2 [2, 1] (hc 2 (by omega)) (by omega)]
  norm_num
  rw [show k + 5 = (k+4)+1 from by omega,
      retryLoop429_429_step call (k+4) 3 3 [4, 2, 1] (hc 3 (by omega)) (by omega)]
  norm_num
  rw [show k + 4 = (k+3)+1 from by omega,
      retryLoop429_429_step call (k+3) 4 4 [8, 4, 2, 1] (hc 4 (by omega)) (by omega)]
  norm_num
  rw [show k + 3 = (k+2)+1 from by omega,
      retryLoop429_429_step call (k+2) 5 5 [16, 8, 4, 2, 1] (hc 5 (by omega)) (by omega)]
  norm_num
  rw [show k + 2 = (k+1)+1 from by omega,
      retryLoop429_429_step call (k+1) 6 6 [32, 16, 8, 4, 2, 1] (hc 6 (by omega)) (by omega)]
  norm_num
  rw [retryLoop429_cap_step call k 7 7 [64, 32, 16, 8, 4, 2, 1] (.httpResponse 429)
      (hc 7 (by omega)) (by omega)]
  simp


/-- Witness for the amended C2 theorem at the constant-429 oracle. -/
theorem retry_attempt_cap_amended_witness :
    (∀ i, i < 8 → const429 i = .err (.httpResponse 429))
    ∧ retry_script_with_429 const429 8 =
        some ⟨.error (.httpResponse 429), [1, 2, 4, 8, 16, 32, 64], 8⟩ :=
  ⟨fun _ _ => rfl, retry_attempt_cap_amended const429 (fun _ _ => rfl) 0⟩

/-- C7: for any call sequence answering 429 exactly 6 times and then
succeeding, the fetcher returns the success value after exactly 6
backoff waits of 1, 2, 4, 8, 16, 32 seconds, in that order, with exactly
7 call attempts and no further retry. -/
theorem retry_six_429s_then_success (call : Nat → CallResult (List Tx)) (v : List Tx)
    (hc : ∀ i, i < 6 → call i = .err (.httpResponse 429)) (hok : call 6 = .ok v) (k : Nat) :
    retry_script_with_429 call (k + 7) = some ⟨.ok v, [1, 2, 4, 8, 16, 32], 7⟩ := by
  rw [retry_script_with_429, show k + 7 = (k+6)+1 from by omega,
      retryLoop429_429_step call (k+6) 0 0 [] (hc 0 (by omega)) (by omega)]
  norm_num
  rw [show k + 6 = (k+5)+1 from by omega,
      retryLoop429_429_step call (k+5) 1 1 [1] (hc 1 (by omega)) (by omega)]
  norm_num
  rw [show k + 5 = (k+4)+1 from by omega,
      retryLoop429_429_step call (k+4) 2 2 [2, 1] (hc 2 (by omega)) (by omega)]
  norm_num
  rw [show k + 4 = (k+3)+1 from by omega,
      retryLoop429_429_step call (k+3) 3 3 [4, 2, 1] (hc 3 (by omega)) (by omega)]
  norm_num
  rw [show k + 3 = (k+2)+1 from by omega,
      retryLoop429_429_step call (k+2) 4 4 [8, 4, 2, 1] (hc 4 (by omega)) (by omega)]
  norm_num
  rw [show k + 2 = (k+1)+1 from by omega,
      retryLoop429_429_step call (k+1) 5 5 [16, 8, 4, 2, 1] (hc 5 (by omega)) (by omega)]
  norm_num
  rw [retryLoop429_ok_step call k 6 6 [32, 16, 8, 4, 2, 1] v hok]
  simp

/-- Witness for the C7 theorem at a concrete 6-times-429-then-success
oracle. -/
theorem retry_six_429s_then_success_witness :
    (∀ i, i < 6 → sixThenOk i = .err (.httpResponse 429))
    ∧ sixThenOk 6 = .ok []
    ∧ retry_script_with_429 sixThenOk 7 = some ⟨.ok [], [1, 2, 4, 8, 16, 32], 7⟩ :=
  ⟨fun i hi => by simp [sixThenOk, hi], by decide,
   retry_six_429s_then_success sixThenOk [] (fun i hi => by simp [sixThenOk, hi]) (by decide) 0⟩

/-- Unfolding equation for one iteration of the Collector's pagination
loop. -/
theorem collectLoop_succ {ε : Type} (fetch : Option Nat → Except ε (List Tx))
    (fuel : Nat) (related : List Tx) (fetches : Nat) :
    collectLoop fetch (fuel+1) related fetches =
      match related.getLast? with
      | none => .panic
      | some last =>
        match fetch (some last.txid) with
        | .error e => .err e
        | .ok new_related =>
          if new_related.length < 25 then .ok (related ++ new_related, fetches + 1)
          else collectLoop fetch fuel (related ++ new_related) (fetches + 1) := rfl

/-- C5: for a script whose first history page has fewer than 25
confirmed records, the Collector performs exactly one page fetch and
returns exactly that page, in API-return order. -/
theorem collector_single_page {ε : Type} (fetch : Option Nat → Except ε (List Tx))
    (page : List Tx) (fuel : Nat)
    (h1 : fetch none = .ok page)
    (hc : (page.filter fun tx => tx.status.confirmed).length < 25) :
    collectHistory fetch fuel = .ok (page, 1) := by
  simp only [collectHistory, h1]
  rw [if_neg (by omega)]



/-- Witness for the C5 theorem at a concrete one-page script. -/
theorem collector_single_page_witness :
    fetchOnePage none = .ok [mkTx 1]
    ∧ (([mkTx 1].filter fun tx => tx.status.confirmed).length < 25)
    ∧ collectHistory fetchOnePage 3 = .ok ([mkTx 1], 1) :=
  ⟨rfl, by decide, collector_single_page fetchOnePage [mkTx 1] 3 rfl (by decide)⟩

/-- C6: when the first page has 25 or more confirmed entries, the
Collector fetches further pages with the last accumulated record's txid
as cursor, appends each page, and stops after the first subsequent page
with fewer than 25 records.  First conjunct: generic two-page script
(second page shorter than 25).  Second conjunct: a script whose
confirmed count is an exact multiple of 25 (two full pages), where one
additional empty-page fetch occurs before termination, for 3 page
fetches in total. -/
theorem collector_pagination {ε : Type}
    (fetchA : Option Nat → Except ε (List Tx)) (p1 p2 : List Tx) (l1 : Tx) (k : Nat)
    (ha1 : fetchA none = .ok p1)
    (hac : 25 ≤ (p1.filter fun tx => tx.status.confirmed).length)
    (hal : p1.getLast? = some l1)
    (ha2 : fetchA (some l1.txid) = .ok p2)
    (han : p2.length < 25)
    (fetchB : Option Nat → Except ε (List Tx)) (q1 q2 : List Tx) (m1 m2 : Tx) (j : Nat)
    (hb1 : fetchB none = .ok q1)
    (hbc : 25 ≤ (q1.filter fun tx => tx.status.confirmed).length)
    (hbl1 : q1.getLast? = some m1)
    (hb2 : fetchB (some m1.txid) = .ok q2)
    (hbn : q2.length = 25)
    (hbl2 : (q1 ++ q2).getLast? = some m2)
    (hb3 : fetchB (some m2.txid) = .ok []) :
    collectHistory fetchA (k+1) = .ok (p1 ++ p2, 2)
    ∧ collectHistory fetchB (j+2) = .ok (q1 ++ q2, 3) := by
  constructor
  · simp only [collectHistory, ha1]
    rw [if_pos hac, collectLoop_succ]
    simp only [hal, ha2]
    rw [if_pos han]
  · simp only [collectHistory, hb1]
    rw [if_pos hbc, collectLoop_succ]
    simp only [hbl1, hb2]
    rw [if_neg (by omega), collectLoop_succ]
    simp only [hbl2, hb3]
    simp




/-- Witness for the C6 theorem at two concrete scripts: one with 26
confirmed records (2 page fetches) and one with exactly 50 (3 page
fetches, the last one empty). -/
theorem collector_pagination_witness :
    fetchTwoPages none = .ok pageA1
    ∧ 25 ≤ (pageA1.filter fun tx => tx.status.confirmed).length
    ∧ pageA1.getLast? = some (mkTx 24)
    ∧ fetchTwoPages (some (mkTx 24).txid) = .ok pageA2
    ∧ pageA2.length < 25
    ∧ fetchFifty none = .ok pageA1
    ∧ pageB2.length = 25
    ∧ (pageA1 ++ pageB2).getLast? = some (mkTx 49)
    ∧ fetchFifty (some (mkTx 49).txid) = .ok []
    ∧ collectHistory fetchTwoPages 2 = .ok (pageA1 ++ pageA2, 2)
    ∧ collectHistory fetchFifty 3 = .ok (pageA1 ++ pageB2, 3) := by
  have h := collector_pagination fetchTwoPages pageA1 pageA2 (mkTx 24) 1
    (by decide) (by decide) (by decide) (by decide) (by decide)
    fetchFifty pageA1 pageB2 (mkTx 24) (mkTx 49) 1
    (by decide) (by decide) (by decide) (by decide) (by decide) (by decide) (by decide)
  exact ⟨by decide, by decide, by decide, by decide, by decide, by decide, by decide,
    by decide, by decide, h.1, h.2⟩

/-- Looking up k after folding a record list into the Index returns the
last inserted record with txid k, or falls back to the previous index
value. -/
theorem foldl_txIndexInsert_lookup (k : Nat) :
    ∀ (txs : List Tx) (idx : Nat → Option Tx),
      (txs.foldl txIndexInsert idx) k = (lastWithTxid txs k).elim (idx k) some := by
  intro txs
  induction txs with
  | nil => intro idx; rfl
  | cons tx rest ih =>
    intro idx
    show (rest.foldl txIndexInsert (txIndexInsert idx tx)) k = _
    rw [ih (txIndexInsert idx tx)]
    cases hrest : lastWithTxid rest k with
    | some y => simp [lastWithTxid, hrest]
    | none =>
      simp only [lastWithTxid, hrest, Option.elim]
      by_cases hk : k = tx.txid
      · subst hk; simp [txIndexInsert]
      · have hk2 : ¬ tx.txid = k := fun h => hk h.symm
        simp [txIndexInsert, hk, hk2]

/-- The last record with txid k in a concatenation comes from the second
list when it has one, otherwise from the first. -/
theorem lastWithTxid_append (k : Nat) :
    ∀ (a b : List Tx),
      lastWithTxid (a ++ b) k = (lastWithTxid b k).elim (lastWithTxid a k) some := by
  intro a b
  induction a with
  | nil =>
    simp only [List.nil_append]
    cases hb : lastWithTxid b k <;> simp [lastWithTxid, hb]
  | cons t a2 ih =>
    show (lastWithTxid (a2 ++ b) k).elim (if t.txid = k then some t else none) some
        = (lastWithTxid b k).elim (lastWithTxid (t :: a2) k) some
    rw [ih]
    cases hb : lastWithTxid b k with
    | some y => simp
    | none => simp [lastWithTxid]

/-- The index built by the Script-discovery arm maps k to the last
record with txid k across all per-script lists in insertion order, with
the prior index as fallback. -/
theorem indexAfterScripts_lookup (k : Nat) :
    ∀ (tps : List (List Tx)) (idx : Nat → Option Tx),
      indexAfterScripts idx tps k = (lastWithTxid (concatAll tps) k).elim (idx k) some := by
  intro tps
  induction tps with
  | nil => intro idx; rfl
  | cons l ls ih =>
    intro idx
    show indexAfterScripts (l.foldl txIndexInsert idx) ls k = _
    rw [ih (l.foldl txIndexInsert idx), foldl_txIndexInsert_lookup k l idx]
    show _ = (lastWithTxid (l ++ concatAll ls) k).elim (idx k) some
    rw [lastWithTxid_append k l (concatAll ls)]
    cases h : lastWithTxid (concatAll ls) k <;> simp

/-- Every record of a list has an entry with its txid in the
last-with-txid lookup. -/
theorem lastWithTxid_isSome_of_mem :
    ∀ (l : List Tx) (tx : Tx), tx ∈ l → (lastWithTxid l tx.txid).isSome := by
  intro l
  induction l with
  | nil => intro tx h; cases h
  | cons t rest ih =>
    intro tx hmem
    show ((lastWithTxid rest tx.txid).elim
      (if t.txid = tx.txid then some t else none) some).isSome
    cases hr : lastWithTxid rest tx.txid with
    | some y => simp
    | none =>
      rcases List.mem_cons.mp hmem with h | h
      · subst h; simp
      · have := ih tx h
        rw [hr] at this
        simp at this

/-- A successful Script-discovery fetch loop returns one record list per
script: same length as the request sequence, and the i-th list is the
Collector result of the i-th script. -/
theorem fetchAllScripts_ok {ε : Type} (fetch : Nat → Option Nat → Except ε (List Tx))
    (pageFuel : Nat) :
    ∀ (scripts : List Nat) (tps : List (List Tx)),
      fetchAllScripts fetch pageFuel scripts = .ok tps →
      tps.length = scripts.length
      ∧ ∀ i s, scripts.get? i = some s →
          ∃ txs c, tps.get? i = some txs
            ∧ collectHistory (fetch s) pageFuel = .ok (txs, c) := by
  intro scripts
  induction scripts with
  | nil =>
    intro tps h
    simp only [fetchAllScripts] at h
    injection h with h2
    subst h2
    exact ⟨rfl, fun i s hi => by simp at hi⟩
  | cons s rest ih =>
    intro tps h
    simp only [fetchAllScripts] at h
    cases hcol : collectHistory (fetch s) pageFuel with
    | ok pr =>
      obtain ⟨txs, c⟩ := pr
      rw [hcol] at h
      cases hrest : fetchAllScripts fetch pageFuel rest with
      | ok tps0 =>
        rw [hrest] at h
        injection h with h2
        subst h2
        obtain ⟨hlen, hidx⟩ := ih tps0 hrest
        refine ⟨by simp [hlen], ?_⟩
        intro i u hi
        cases i with
        | zero =>
          rw [List.get?_cons_zero] at hi
          injection hi with hi
          subst hi
          exact ⟨txs, c, rfl, hcol⟩
        | succ n =>
          rw [List.get?_cons_succ] at hi
          obtain ⟨txs2, c2, h1, h2⟩ := hidx n u hi
          exact ⟨txs2, c2, by simpa using h1, h2⟩
      | err e => rw [hrest] at h; exact Outcome.noConfusion h
      | panic => rw [hrest] at h; exact Outcome.noConfusion h
      | outOfFuel => rw [hrest] at h; exact Outcome.noConfusion h
    | err e => rw [hcol] at h; exact Outcome.noConfusion h
    | panic => rw [hcol] at h; exact Outcome.noConfusion h
    | outOfFuel => rw [hcol] at h; exact Outcome.noConfusion h

/-- C9: after a successful Script-discovery fetch loop, the satisfaction
payload has one entry per script in request order, each entry the
(txid, optional block height) pairs of that script's Collector result in
return order; and the Transaction Index after the stage maps each txid
to the last record inserted with it (last write wins), so every returned
record has an entry under its txid. -/
theorem script_discovery_satisfaction_and_index {ε : Type}
    (fetch : Nat → Option Nat → Except ε (List Tx)) (pageFuel : Nat)
    (scripts : List Nat) (tps : List (List Tx)) (idx : Nat → Option Tx)
    (h : fetchAllScripts fetch pageFuel scripts = .ok tps) :
    tps.length = scripts.length
    ∧ (∀ i s, scripts.get? i = some s →
        ∃ txs c, tps.get? i = some txs
          ∧ collectHistory (fetch s) pageFuel = .ok (txs, c)
          ∧ (scriptSatisfaction tps).get? i =
              some (txs.map fun tx => (tx.txid, tx.status.block_height)))
    ∧ (∀ k, indexAfterScripts idx tps k = (lastWithTxid (concatAll tps) k).elim (idx k) some)
    ∧ (∀ tx, tx ∈ concatAll tps → (indexAfterScripts idx tps tx.txid).isSome) := by
  obtain ⟨hlen, hidx⟩ := fetchAllScripts_ok fetch pageFuel scripts tps h
  refine ⟨hlen, ?_, fun k => indexAfterScripts_lookup k tps idx, ?_⟩
  · intro i s hi
    obtain ⟨txs, c, hti, hcol⟩ := hidx i s hi
    refine ⟨txs, c, hti, hcol, ?_⟩
    rw [scriptSatisfaction, List.get?_map, hti]
    rfl
  · intro tx hmem
    rw [indexAfterScripts_lookup tx.txid tps idx]
    have hsome := lastWithTxid_isSome_of_mem (concatAll tps) tx hmem
    cases hl : lastWithTxid (concatAll tps) tx.txid with
    | none => rw [hl] at hsome; simp at hsome
    | some y => simp

/-- Witness for the C9 theorem at a concrete two-script request whose
histories share txid 7: the index keeps the later insertion. -/
theorem script_discovery_satisfaction_and_index_witness :
    fetchAllScripts twoScriptFetch 1 [1, 2] = .ok [[mkTx 1, mkTx 7], [mkTx 2, mkTx 7]]
    ∧ ([[mkTx 1, mkTx 7], [mkTx 2, mkTx 7]] : List (List Tx)).length =
        ([1, 2] : List Nat).length := by
  have h : fetchAllScripts twoScriptFetch 1 [1, 2] =
      .ok [[mkTx 1, mkTx 7], [mkTx 2, mkTx 7]] := by decide
  exact ⟨h, (script_discovery_satisfaction_and_index twoScriptFetch 1 [1, 2]
    [[mkTx 1, mkTx 7], [mkTx 2, mkTx 7]] emptyIndex h).1⟩

/-- When every requested txid is present in the Index, the
Confirmation-resolution arm never hits its panic branch and emits one
confirmation time per request, in request order. -/
theorem conftimeStage_total (idx : Nat → Option Tx) :
    ∀ (ts : List Nat), (∀ t ∈ ts, (idx t).isSome) →
      ∃ l, conftimeStage idx ts = some l ∧ l.length = ts.length
        ∧ ∀ i t, ts.get? i = some t →
            ∃ tx, idx t = some tx ∧ l.get? i = some tx.confirmation_time := by
  intro ts
  induction ts with
  | nil => intro _; exact ⟨[], rfl, rfl, fun i t hi => by simp at hi⟩
  | cons t rest ih =>
    intro h
    obtain ⟨tx, htx⟩ := Option.isSome_iff_exists.mp (h t (by simp))
    obtain ⟨l, hl, hlen, hget⟩ := ih (fun u hu => h u (by simp [hu]))
    refine ⟨tx.confirmation_time :: l, ?_, by simp [hlen], ?_⟩
    · simp only [conftimeStage, htx, hl]
    · intro i u hu
      cases i with
      | zero =>
        rw [List.get?_cons_zero] at hu
        injection hu with hu
        subst hu
        exact ⟨tx, htx, rfl⟩
      | succ n =>
        rw [List.get?_cons_succ] at hu
        obtain ⟨tx2, h1, h2⟩ := hget n u hu
        exact ⟨tx2, h1, by simpa using h2⟩

/-- When every requested txid is present in the Index, the
Transaction-fetch arm never hits its panic branch and emits one
(previous-outputs, body) pair per request, in request order. -/
theorem txStage_total (idx : Nat → Option Tx) :
    ∀ (ts : List Nat), (∀ t ∈ ts, (idx t).isSome) →
      ∃ l, txStage idx ts = some l ∧ l.length = ts.length
        ∧ ∀ i t, ts.get? i = some t →
            ∃ tx, idx t = some tx ∧ l.get? i = some (tx.previous_outputs, tx.to_tx) := by
  intro ts
  induction ts with
  | nil => intro _; exact ⟨[], rfl, rfl, fun i t hi => by simp at hi⟩
  | cons t rest ih =>
    intro h
    obtain ⟨tx, htx⟩ := Option.isSome_iff_exists.mp (h t (by simp))
    obtain ⟨l, hl, hlen, hget⟩ := ih (fun u hu => h u (by simp [hu]))
    refine ⟨(tx.previous_outputs, tx.to_tx) :: l, ?_, by simp [hlen], ?_⟩
    · simp only [txStage, htx, hl]
    · intro i u hu
      cases i with
      | zero =>
        rw [List.get?_cons_zero] at hu
        injection hu with hu
        subst hu
        exact ⟨tx, htx, rfl⟩
      | succ n =>
        rw [List.get?_cons_succ] at hu
        obtain ⟨tx2, h1, h2⟩ := hget n u hu
        exact ⟨tx2, h1, by simpa using h2⟩

/-- C4: under the precondition that every txid in the stage's request
sequence is present in the Transaction Index, both the
Confirmation-resolution and the Transaction-fetch arms succeed with no
reachable "must be in index" panic, and each emitted satisfaction
sequence has the same length and order as its request sequence. -/
theorem later_stages_no_panic (idx : Nat → Option Tx) (cts txf : List Nat)
    (hc : ∀ t ∈ cts, (idx t).isSome) (ht : ∀ t ∈ txf, (idx t).isSome) :
    (∃ l, conftimeStage idx cts = some l ∧ l.length = cts.length
      ∧ ∀ i t, cts.get? i = some t →
          ∃ tx, idx t = some tx ∧ l.get? i = some tx.confirmation_time)
    ∧ (∃ l, txStage idx txf = some l ∧ l.length = txf.length
      ∧ ∀ i t, txf.get? i = some t →
          ∃ tx, idx t = some tx ∧ l.get? i = some (tx.previous_outputs, tx.to_tx)) :=
  ⟨conftimeStage_total idx cts hc, txStage_total idx txf ht⟩

/-- Witness for the C4 theorem at a concrete two-entry index. -/
theorem later_stages_no_panic_witness :
    (∀ t ∈ [1, 2], (idxW t).isSome)
    ∧ (∀ t ∈ [2, 1], (idxW t).isSome)
    ∧ (conftimeStage idxW [1, 2]).isSome
    ∧ (txStage idxW [2, 1]).isSome := by
  have h1 : ∀ t ∈ [1, 2], (idxW t).isSome := by decide
  have h2 : ∀ t ∈ [2, 1], (idxW t).isSome := by decide
  obtain ⟨⟨l1, hl1, -, -⟩, ⟨l2, hl2, -, -⟩⟩ := later_stages_no_panic idxW [1, 2] [2, 1] h1 h2
  exact ⟨h1, h2, by rw [hl1]; rfl, by rw [hl2]; rfl⟩

/-- C3: commit discipline of wallet_setup.  First conjunct: if a fetch
error occurs during the Script-discovery stage, the sync returns that
error and commit_batch is never invoked.  Second conjunct: when the
driver loop reaches Finish with a BatchUpdate and the commit succeeds,
commit_batch is invoked exactly once, with that Finish-stage
BatchUpdate. -/
theorem wallet_setup_commit_discipline {ε ε2 : Type}
    (fetch : Nat → Option Nat → Except ε (List Tx)) (pageFuel fuel : Nat)
    (scripts : List Nat) (next : List (List (Nat × Option Nat)) → Except ε (Plan ε))
    (commit_batch : Nat → Except ε Unit) (e : ε)
    (hf : fetchAllScripts fetch pageFuel scripts = .err e)
    (fetch2 : Nat → Option Nat → Except ε2 (List Tx)) (pageFuel2 fuel2 : Nat)
    (plan2 : Plan ε2) (commit2 : Nat → Except ε2 Unit) (batch2 : Nat)
    (hs : runReq fetch2 pageFuel2 fuel2 emptyIndex plan2 = .ok batch2)
    (hcommit : commit2 batch2 = .ok ()) :
    wallet_setup fetch pageFuel (fuel+1) (.script scripts next) commit_batch = (.err e, [])
    ∧ wallet_setup fetch2 pageFuel2 fuel2 plan2 commit2 = (.ok (), [batch2]) := by
  constructor
  · have hrr : runReq fetch pageFuel (fuel+1) emptyIndex (.script scripts next) = .err e := by
      simp only [runReq, hf]
    simp only [wallet_setup, hrr]
  · simp only [wallet_setup, hs, hcommit]

/-- Witness for the C3 theorem: a failing fetch aborts with no commit,
and a plan already at Finish commits its batch exactly once. -/
theorem wallet_setup_commit_discipline_witness :
    fetchAllScripts failFetch 1 [0] = .err 7
    ∧ runReq failFetch 1 1 emptyIndex planOK = .ok 42
    ∧ commitOK 42 = .ok ()
    ∧ wallet_setup failFetch 1 2 (.script [0] nextW) commitOK = (.err 7, [])
    ∧ wallet_setup failFetch 1 1 planOK commitOK = (.ok (), [42]) := by
  have h1 : fetchAllScripts failFetch 1 [0] = .err 7 := by decide
  have h2 : runReq failFetch 1 1 emptyIndex planOK = .ok 42 := rfl
  have h3 : commitOK 42 = .ok () := rfl
  have h := wallet_setup_commit_discipline failFetch 1 1 [0] nextW commitOK 7 h1
    failFetch 1 1 planOK commitOK 42 h2 h3
  exact ⟨h1, h2, h3, h.1, h.2⟩

/-- C8 counterexample: broadcast does not perform its remote call
through the rate-limit-aware retried call path.  On a call sequence
answering 429 first and succeeding afterwards, broadcast returns the
429 error after exactly one underlying call, while the retried call path
on the same sequence backs off once and returns the success value on a
second call. -/
theorem passthrough_retry_counterexample :
    broadcast (fun i => if i = 0 then .err (.httpResponse 429) else .ok ()) =
      (.error (.httpResponse 429), 1)
    ∧ retryLoop429 (fun i => if i = 0 then .err (.httpResponse 429) else .ok ()) 5 0 0 [] =
        some ⟨.ok (), [1], 2⟩ := by
  decide

/-- C8 amended: only the single transaction-by-id lookup goes through
the rate-limit-aware retried call path; broadcast, fee-estimate lookup,
chain-height lookup and block-hash-by-height lookup each perform exactly
one direct client call and return any error, including a rate-limit
(429) response, immediately with no retry. -/
theorem passthrough_direct_calls_amended
    (callU : Nat → CallResult Unit) (callH : Nat → CallResult Nat)
    (callF : Nat → CallResult (List (Nat × Nat)))
    (convert : List (Nat × Nat) → Except CallErr Nat)
    (callB : Nat → CallResult Nat) (height : Nat) (e : CallErr)
    (hU : callU 0 = .err e) (hH : callH 0 = .err e) (hF : callF 0 = .err e)
    (hB : callB (height % 2 ^ 32) = .err e)
    (callT : Nat → CallResult (Option Nat)) (fuel : Nat) :
    broadcast callU = (.error e, 1)
    ∧ get_height callH = (.error e, 1)
    ∧ estimate_fee callF convert = (.error e, 1)
    ∧ get_block_hash callB height = (.error e, 1)
    ∧ get_tx callT fuel = retryLoop429 callT fuel 0 0 [] := by
  refine ⟨?_, ?_, ?_, ?_, rfl⟩
  · simp only [broadcast, oneCall, hU]
  · simp only [get_height, oneCall, hH]
  · simp only [estimate_fee, hF]
  · simp only [get_block_hash, oneCall, hB]

/-- Witness for the amended C8 theorem at an always-429 client. -/
theorem passthrough_direct_calls_amended_witness :
    errCall Unit 0 = .err (.httpResponse 429)
    ∧ broadcast (errCall Unit) = (.error (.httpResponse 429), 1)
    ∧ get_block_hash (errCall Nat) 5 = (.error (.httpResponse 429), 1) := by
  have h := passthrough_direct_calls_amended (errCall Unit) (errCall Nat)
    (errCall (List (Nat × Nat))) (fun _ => .ok 0) (errCall Nat) 5 (.httpResponse 429)
    rfl rfl rfl rfl (errCall (Option Nat)) 3
  exact ⟨rfl, h.1, h.2.2.2.1⟩

/-- C10: get_block_hash truncates its 64-bit height argument modulo
2^32 before querying the client: any two heights congruent modulo 2^32
produce the same call and result, and a height below 2^32 queries the
client at the height itself. -/
theorem get_block_hash_truncates (client_call : Nat → CallResult Nat) (h1 h2 : Nat)
    (hcong : h1 % 2 ^ 32 = h2 % 2 ^ 32) :
    get_block_hash client_call h1 = get_block_hash client_call h2
    ∧ (h1 < 2 ^ 32 → get_block_hash client_call h1 = oneCall client_call h1) := by
  constructor
  · rw [get_block_hash, get_block_hash, hcong]
  · intro hlt
    rw [get_block_hash, Nat.mod_eq_of_lt hlt]

/-- Witness for the C10 theorem: heights 5 and 2^32 + 5 are congruent
modulo 2^32 and produce the same lookup, and height 5 is passed through
unchanged. -/
theorem get_block_hash_truncates_witness :
    5 % 2 ^ 32 = (2 ^ 32 + 5) % 2 ^ 32
    ∧ get_block_hash someClient 5 = get_block_hash someClient (2 ^ 32 + 5)
    ∧ (5 < 2 ^ 32 → get_block_hash someClient 5 = oneCall someClient 5) := by
  have h := get_block_hash_truncates someClient 5 (2 ^ 32 + 5) (by decide)
  exact ⟨by decide, h.1, h.2⟩
